import Mathlib

/-! currency-population: the refresh / merge / reconcile pipeline

A shallow embedding of `refreshCountries` (src/internal/api/handlers.go) and of the
data model of src/internal/models/models.go, followed by theorems about it.

* `float64` is embedded as IEEE 754 binary64 with round-to-nearest-even: a finite value
  is a sign and a rational magnitude, and every arithmetic result is rounded to the
  53-bit grid of its binade (with gradual underflow and overflow to infinity). Each
  operation is rounded on its own, as the amd64 compiler emits it (no fused
  multiply-add).
* The database handle `database.DB` is embedded as an explicitly passed table of rows
  with the statements `First`, `Updates` and `Create` that `refreshCountries` issues,
  with the meaning gorm gives them. The table stores values as they are handed to it.
  The unique index on `name` never rejects a statement of `refreshCountries` on a
  table with case-insensitively distinct names (a row is created only after a failed
  lookup and an update keeps the name in its case class); any other failure of a
  statement is an injected `Fault`.
* The outside world (the two HTTP fetches, the clock, the random source, storage
  failures, the file system used by the image step) is passed in as arguments.
-/

namespace CurrencyPopulation

/-! ## float64 -/

/-- Halving loop that computes the position of the highest set bit. -/
def log2Fuel : Nat → Nat → Nat
  | 0, _ => 0
  | fuel + 1, n => if 2 ≤ n then log2Fuel fuel (n / 2) + 1 else 0

/-- Floor of the base-two logarithm of a natural number (zero at zero). -/
def natLog2 (n : Nat) : Nat := log2Fuel n n

/-- The rational number two to the power `z`. -/
def pow2 (z : ℤ) : ℚ :=
  if 0 ≤ z then ((2 ^ z.toNat : ℕ) : ℚ) else 1 / ((2 ^ (-z).toNat : ℕ) : ℚ)

/-- Floor of the base-two logarithm of a positive rational: the binade of `q`. -/
def ilog2 (q : ℚ) : ℤ :=
  let d : ℤ := (natLog2 q.num.natAbs : ℤ) - (natLog2 q.den : ℤ)
  if pow2 d ≤ q then d else d - 1

/-- Nearest integer, ties going to the even neighbour. -/
def roundEven (q : ℚ) : ℤ :=
  let f := ⌊q⌋
  let d := q - f
  if d < 1 / 2 then f
  else if 1 / 2 < d then f + 1
  else if f % 2 = 0 then f else f + 1

/-- Exponent of the unit in the last place of the binade of `q`: 52 below the binade,
but never below the subnormal spacing `2^(-1074)`. -/
def ulpExp (q : ℚ) : ℤ := max (ilog2 q - 52) (-1074)

/-- Round a non-negative magnitude to the binary64 grid (exponent range unbounded above). -/
def roundMag (q : ℚ) : ℚ :=
  if q = 0 then 0
  else (roundEven (q / pow2 (ulpExp q)) : ℚ) * pow2 (ulpExp q)

/-- A `float64` value: a signed finite magnitude (zero carries a sign), an infinity, or NaN. -/
inductive F64 where
  | fin (neg : Bool) (mag : ℚ)
  | inf (neg : Bool)
  | nan
  deriving DecidableEq

namespace F64

/-- Round an exact result with the given sign; magnitudes that round to `2^1024` or more
overflow to infinity. -/
def round (neg : Bool) (mag : ℚ) : F64 :=
  if pow2 1024 ≤ roundMag mag then inf neg else fin neg (roundMag mag)

/-- The exact rational value of a finite float. -/
def signed (neg : Bool) (mag : ℚ) : ℚ := if neg then -mag else mag

/-- Conversion `float64(n)` of an integer. -/
def ofInt (n : ℤ) : F64 := round (decide (n < 0)) (|n| : ℤ)

/-- Float multiplication `x * y`. -/
def mul : F64 → F64 → F64
  | nan, _ => nan
  | _, nan => nan
  | inf s, inf t => inf (xor s t)
  | inf s, fin t m => if m = 0 then nan else inf (xor s t)
  | fin s m, inf t => if m = 0 then nan else inf (xor s t)
  | fin s a, fin t b => round (xor s t) (a * b)

/-- Float division `x / y`. -/
def div : F64 → F64 → F64
  | nan, _ => nan
  | _, nan => nan
  | inf _, inf _ => nan
  | inf s, fin t _ => inf (xor s t)
  | fin s _, inf t => fin (xor s t) 0
  | fin s a, fin t b =>
    if b = 0 then (if a = 0 then nan else inf (xor s t)) else round (xor s t) (a / b)

/-- Float addition `x + y`. -/
def add : F64 → F64 → F64
  | nan, _ => nan
  | _, nan => nan
  | inf s, inf t => if s = t then inf s else nan
  | inf s, fin _ _ => inf s
  | fin _ _, inf t => inf t
  | fin s a, fin t b =>
    let v := signed s a + signed t b
    if v = 0 then fin (s && t) 0 else round (decide (v < 0)) |v|

/-- The value of a float as a rational, when it is finite. -/
def toRat? : F64 → Option ℚ
  | fin s m => some (signed s m)
  | _ => none

end F64

/-! ## math/rand -/

/-- The quotient `float64(k) / (1 << 63)` that `Float64` of math/rand computes from an
output `k` of `r.Int63()`. -/
def int63Quotient (k : Nat) : F64 :=
  F64.div (F64.ofInt (k : ℤ)) (F64.fin false 9223372036854775808)

/-- An output of `r.Int63()` from which `Float64` returns: a 63-bit integer whose quotient
`f` is not 1. On `f == 1` the function jumps back to `again` and draws anew, so the
integers that round up to `2^63` are never the ones it returns from. -/
structure Draw where
  int63 : Nat
  lt : int63 < 2 ^ 63
  accepted : int63Quotient int63 ≠ F64.fin false 1

/-- The process-wide random source, as the stream of the draws that successive calls of
`rand.Float64()` return from. -/
abbrev Source := Nat → Draw

/-- The call `rand.Float64()`: the float `float64(r.Int63()) / (1 << 63)` of the next
accepted draw, a float in `[0, 1)`, together with the advanced source. -/
def rand.Float64 (g : Source) : F64 × Source :=
  (int63Quotient (g 0).int63, fun i => g (i + 1))

/-! ## internal/models -/

/-- Instants of `time.Time`, counted from the zero instant; `0` is the zero `Time`. -/
abbrev Time := Nat

/-- The struct `models.Country`: one row of the table `countries`. -/
structure Country where
  ID : Nat
  Name : String
  Capital : String
  Region : String
  Population : ℤ
  CurrencyCode : String
  ExchangeRate : Option F64
  EstimatedGDP : Option F64
  FlagURL : String
  LastRefreshedAt : Time
  deriving DecidableEq

/-- One entry of `ExternalCountry.Currencies`. -/
structure Currency where
  Code : String
  deriving DecidableEq

/-- The struct `models.ExternalCountry`: one record of the countries API. -/
structure ExternalCountry where
  Name : String
  Capital : String
  Region : String
  Population : ℤ
  Flag : String
  Currencies : List Currency
  deriving DecidableEq

/-- The struct `models.ExchangeRates`; the Go map is its lookup `rate, ok := Rates[code]`. -/
structure ExchangeRates where
  Rates : String → Option F64

/-! ## The merge step of `refreshCountries` (handlers.go, lines 76-93) -/

/-- The constant `1000.0`. -/
def thousand : F64 := F64.fin false 1000

/-- The expression `1000.0 + rand.Float64()*1000.0` for a drawn float `r`. -/
def multiplier (r : F64) : F64 := F64.add thousand (F64.mul r thousand)

/-- The expression `float64(country.Population) * multiplier / rate`. -/
def estimatedGDP (population : ℤ) (m rate : F64) : F64 :=
  F64.div (F64.mul (F64.ofInt population) m) rate

/-- The record `country` that one loop iteration builds from `extCountry`; the random
source is advanced only when a rate is found. -/
def buildCountry (extCountry : ExternalCountry) (exchangeRates : ExchangeRates) (now : Time)
    (g : Source) : Country × Source :=
  let country : Country :=
    { ID := 0
      Name := extCountry.Name
      Capital := extCountry.Capital
      Region := extCountry.Region
      Population := extCountry.Population
      CurrencyCode := ""
      ExchangeRate := none
      EstimatedGDP := none
      FlagURL := extCountry.Flag
      LastRefreshedAt := now }
  match extCountry.Currencies with
  | [] => (country, g)
  | first :: _ =>
    let country := { country with CurrencyCode := first.Code }
    match exchangeRates.Rates country.CurrencyCode with
    | none => (country, g)
    | some rate =>
      let m := multiplier (rand.Float64 g).1
      let gdp := estimatedGDP country.Population m rate
      ({ country with ExchangeRate := some rate, EstimatedGDP := some gdp }, (rand.Float64 g).2)

/-! ## The store behind `database.DB` -/

/-- The table `countries` with its AUTO_INCREMENT counter. -/
structure DB where
  rows : List Country
  autoIncrement : Nat
  deriving DecidableEq

/-- The SQL function `LOWER` (on the letters A-Z). -/
def LOWER (s : String) : String := String.mk (s.data.map Char.toLower)

/-- What the storage does to the statements of one loop iteration: nothing unusual,
the lookup fails with an error that is not record-not-found, or the write fails. -/
inductive Fault where
  | none
  | lookup
  | write
  deriving DecidableEq

/-- Result of `DB.Where(..).First(&existingCountry)`. -/
inductive FirstResult where
  | found (existingCountry : Country)
  | recordNotFound
  | otherError
  deriving DecidableEq

/-- The query `Where("LOWER(name) = LOWER(?)", name).First(&existingCountry)`:
the matching row with the smallest primary key, `gorm.ErrRecordNotFound` when no row
matches, another error when the storage fails. -/
def First (db : DB) (name : String) (fails : Bool) : FirstResult :=
  if fails then FirstResult.otherError
  else
    match List.argmin Country.ID (db.rows.filter fun r => LOWER r.Name = LOWER name) with
    | some r => FirstResult.found r
    | none => FirstResult.recordNotFound

/-- Column assignment of `Updates` called with a struct: gorm writes only the fields of
`v` that are not the zero value of their type (`0`, `""`, a nil pointer, the zero time);
every other column of the row `r` keeps its value. -/
def assignNonZero (r v : Country) : Country :=
  { ID := if v.ID = 0 then r.ID else v.ID
    Name := if v.Name = "" then r.Name else v.Name
    Capital := if v.Capital = "" then r.Capital else v.Capital
    Region := if v.Region = "" then r.Region else v.Region
    Population := if v.Population = 0 then r.Population else v.Population
    CurrencyCode := if v.CurrencyCode = "" then r.CurrencyCode else v.CurrencyCode
    ExchangeRate := match v.ExchangeRate with
      | some x => some x
      | none => r.ExchangeRate
    EstimatedGDP := match v.EstimatedGDP with
      | some x => some x
      | none => r.EstimatedGDP
    FlagURL := if v.FlagURL = "" then r.FlagURL else v.FlagURL
    LastRefreshedAt := if v.LastRefreshedAt = 0 then r.LastRefreshedAt else v.LastRefreshedAt }

/-- The statement `DB.Model(&existingCountry).Updates(country)`: an UPDATE of the rows whose
primary key is that of `existingCountry` (refused when that key is zero, since no WHERE
clause can be built). Returns the store and whether the statement reported an error. -/
def Updates (db : DB) (existingCountry country : Country) (fails : Bool) : DB × Bool :=
  if fails then (db, true)
  else if existingCountry.ID = 0 then (db, true)
  else
    ({ db with rows := db.rows.map fun r =>
        if r.ID = existingCountry.ID then assignNonZero r country else r }, false)

/-- The statement `DB.Create(&country)`: an INSERT of all fields; a zero primary key is
replaced by the AUTO_INCREMENT counter, an explicit one must be unused. Returns the
store and whether the statement reported an error. -/
def Create (db : DB) (country : Country) (fails : Bool) : DB × Bool :=
  if fails then (db, true)
  else if country.ID = 0 then
    ({ rows := db.rows ++ [{ country with ID := db.autoIncrement }]
       autoIncrement := db.autoIncrement + 1 }, false)
  else if db.rows.any (fun r => r.ID = country.ID) then (db, true)
  else
    ({ rows := db.rows ++ [country]
       autoIncrement := max db.autoIncrement (country.ID + 1) }, false)

/-! ## `generateSummaryImage` and `refreshCountries` -/

/-- The parts of the file system that `generateSummaryImage` depends on. -/
structure ImageEnv where
  fontLoads : Bool
  mkdirSucceeds : Bool
  createSucceeds : Bool
  encodeSucceeds : Bool
  deriving DecidableEq

/-- The function `generateSummaryImage`: it only reads the store (a count and the top
five rows) and returns the error of the first failing step, if any. -/
def generateSummaryImage (env : ImageEnv) (_db : DB) : Option String :=
  if !env.fontLoads then some "error loading font"
  else if !env.mkdirSucceeds then some "error creating cache directory"
  else if !env.createSucceeds then some "error creating file"
  else if !env.encodeSucceeds then some "error encoding image"
  else none

/-- Outcome of a fetch: `http.Get` fails, the body fails to decode, or a decoded value. -/
inductive Fetch (α : Type) where
  | transportError
  | decodeError
  | ok (body : α)

/-- The HTTP response written by `refreshCountries`. -/
inductive Response where
  | ok (message : String)
  | serviceUnavailable (error api : String)
  | internalServerError (error : String)
  deriving DecidableEq

/-- The loop `for _, extCountry := range countries` of `refreshCountries`. The result is
`true` when the loop ran to its end and `false` when it returned early, with the store
and the random source as the loop left them. `faults i` is the storage behaviour during
the iteration at position `i`. -/
def refreshLoop (exchangeRates : ExchangeRates) (now : Time) :
    List ExternalCountry → (Nat → Fault) → Source → DB → Bool × DB × Source
  | [], _, g, db => (true, db, g)
  | extCountry :: rest, faults, g, db =>
    let built := buildCountry extCountry exchangeRates now g
    match First db built.1.Name (decide (faults 0 = Fault.lookup)) with
    | FirstResult.found existingCountry =>
      refreshLoop exchangeRates now rest (fun i => faults (i + 1)) built.2
        (Updates db existingCountry built.1 (decide (faults 0 = Fault.write))).1
    | FirstResult.recordNotFound =>
      refreshLoop exchangeRates now rest (fun i => faults (i + 1)) built.2
        (Create db built.1 (decide (faults 0 = Fault.write))).1
    | FirstResult.otherError => (false, db, built.2)

/-- What a call of the handler leaves behind: the response, the store, the log lines. -/
structure Outcome where
  response : Response
  db : DB
  log : List String
  deriving DecidableEq

/-- The handler `refreshCountries`, given the outcomes of the two fetches, the clock
reading `now`, the random source, the storage behaviour and the file system. -/
def refreshCountries (countriesAPI : Fetch (List ExternalCountry))
    (exchangeAPI : Fetch ExchangeRates) (now : Time) (g : Source) (faults : Nat → Fault)
    (env : ImageEnv) (db : DB) : Outcome :=
  match countriesAPI with
  | Fetch.transportError =>
    ⟨Response.serviceUnavailable "External data source unavailable" "Countries API", db, []⟩
  | Fetch.decodeError =>
    ⟨Response.internalServerError "Failed to parse countries data", db, []⟩
  | Fetch.ok countries =>
    match exchangeAPI with
    | Fetch.transportError =>
      ⟨Response.serviceUnavailable "External data source unavailable" "Exchange Rates API",
        db, []⟩
    | Fetch.decodeError =>
      ⟨Response.internalServerError "Failed to parse exchange rates data", db, []⟩
    | Fetch.ok exchangeRates =>
      match refreshLoop exchangeRates now countries faults g db with
      | (false, db1, _) => ⟨Response.internalServerError "Database error", db1, []⟩
      | (true, db1, _) =>
        match generateSummaryImage env db1 with
        | some err =>
          ⟨Response.ok "Data refreshed successfully", db1,
            ["Error generating summary image: " ++ err]⟩
        | none => ⟨Response.ok "Data refreshed successfully", db1, []⟩

/-! ## Schema invariants of the table -/

/-- The primary keys of the rows, in table order. -/
def DB.ids (db : DB) : List Nat := db.rows.map Country.ID

/-- The names of the rows as `LOWER(name)` sees them, in table order. -/
def DB.keys (db : DB) : List String := db.rows.map fun r => LOWER r.Name

/-- The primary-key constraint with AUTO_INCREMENT: keys are positive, pairwise distinct
and below the counter. -/
def DB.WF (db : DB) : Prop :=
  db.ids.Nodup ∧ 0 < db.autoIncrement ∧ ∀ i ∈ db.ids, 0 < i ∧ i < db.autoIncrement

/-- Names are pairwise distinct when compared case-insensitively. -/
def DB.NamesDistinct (db : DB) : Prop := db.keys.Nodup

instance (db : DB) : Decidable db.WF := by unfold DB.WF; infer_instance

instance (db : DB) : Decidable db.NamesDistinct := by unfold DB.NamesDistinct; infer_instance

/-- Storage that never fails. -/
def noFaults : Nat → Fault := fun _ => Fault.none

/-! ## Scenarios -/

/-- The upstream record of the spec scenario: population 1000, first currency TST. -/
def testland : ExternalCountry :=
  { Name := "Testland", Capital := "", Region := "", Population := 1000, Flag := "",
    Currencies := [⟨"TST"⟩] }

/-- The rates of the spec scenario: TST at 2.0 and nothing else. -/
def tstRates : ExchangeRates :=
  ⟨fun code => if code = "TST" then some (F64.fin false 2) else none⟩

/-- A random source whose `Int63` always hands out `2^63 - 1024`, so that
`rand.Float64()` returns `1 - 2^(-53)`, the largest float below one. -/
def lastDraw : Source := fun _ => ⟨9223372036854774784, by decide, by decide!⟩

/-- A random source that always hands out zero. -/
def zeroDraw : Source := fun _ => ⟨0, by decide, by decide!⟩

/-- A file system on which every step of the image generation succeeds. -/
def goodEnv : ImageEnv := ⟨true, true, true, true⟩

/-- A file system on which the font cannot be loaded. -/
def noFontEnv : ImageEnv := ⟨false, true, true, true⟩

/-- An empty table. -/
def emptyDB : DB := ⟨[], 1⟩

/-- A stored row for France as an earlier refresh left it. -/
def franceRow : Country :=
  { ID := 1, Name := "France", Capital := "Paris", Region := "Europe",
    Population := 67000000, CurrencyCode := "EUR",
    ExchangeRate := some (F64.fin false (7 / 8)),
    EstimatedGDP := some (F64.fin false 100000000000),
    FlagURL := "https://flagcdn.com/fr.svg", LastRefreshedAt := 1 }

/-- A table that holds only the row for France. -/
def franceDB : DB := ⟨[franceRow], 2⟩

/-- An upstream record for France, spelled in capitals, that now reports no capital,
no population and no currency. -/
def franceBare : ExternalCountry :=
  { Name := "FRANCE", Capital := "", Region := "Europe", Population := 0,
    Flag := "https://flagcdn.com/fr.svg", Currencies := [] }

/-- An upstream record for France with a capital and a currency that has no rate. -/
def franceFull : ExternalCountry :=
  { Name := "France", Capital := "Paris", Region := "Europe", Population := 67000000,
    Flag := "https://flagcdn.com/fr.svg", Currencies := [⟨"EUR"⟩] }

/-- An upstream record for an island without any currency. -/
def island : ExternalCountry :=
  { Name := "Island", Capital := "", Region := "Polar", Population := 0, Flag := "",
    Currencies := [] }

/-- Storage whose write fails in the first iteration only. -/
def writeFaultFirst : Nat → Fault := fun i => if i = 0 then Fault.write else Fault.none

/-- Storage whose lookup fails in the second iteration only. -/
def lookupFaultSecond : Nat → Fault := fun i => if i = 1 then Fault.lookup else Fault.none


/-! ## Facts about the rounding functions -/

theorem pow2_eq (z : ℤ) : pow2 z = (2 : ℚ) ^ z := by
  unfold pow2
  split_ifs with h
  · obtain ⟨n, rfl⟩ := Int.eq_ofNat_of_zero_le h
    simp
  · push_neg at h
    obtain ⟨n, hn⟩ := Int.eq_ofNat_of_zero_le (show 0 ≤ -z by omega)
    have hz : z = -(n : ℤ) := by omega
    subst hz
    simp

theorem pow2_pos (z : ℤ) : 0 < pow2 z := by
  rw [pow2_eq]; positivity

theorem pow2_le_pow2 {a b : ℤ} (h : a ≤ b) : pow2 a ≤ pow2 b := by
  rw [pow2_eq, pow2_eq]
  exact zpow_le_zpow_right₀ (by norm_num) h

theorem pow2_lt_pow2_iff {a b : ℤ} : pow2 a < pow2 b ↔ a < b := by
  rw [pow2_eq, pow2_eq]
  exact zpow_lt_zpow_iff_right₀ (by norm_num)

theorem log2Fuel_le (fuel n : Nat) (hn : 0 < n) : 2 ^ log2Fuel fuel n ≤ n := by
  induction fuel generalizing n with
  | zero => simpa [log2Fuel] using hn
  | succ k ih =>
    unfold log2Fuel
    split_ifs with h
    · have := ih (n / 2) (by omega)
      rw [pow_succ]
      omega
    · simpa using hn

theorem lt_log2Fuel (fuel n : Nat) (hn : n < 2 ^ fuel) : n < 2 ^ (log2Fuel fuel n + 1) := by
  induction fuel generalizing n with
  | zero => simp at hn; subst hn; simp [log2Fuel]
  | succ k ih =>
    unfold log2Fuel
    split_ifs with h
    · have := ih (n / 2) (by rw [pow_succ] at hn; omega)
      rw [pow_succ]
      omega
    · simp; omega

theorem natLog2_le (n : Nat) (hn : 0 < n) : 2 ^ natLog2 n ≤ n := log2Fuel_le n n hn

theorem lt_natLog2 (n : Nat) : n < 2 ^ (natLog2 n + 1) := lt_log2Fuel n n (Nat.lt_two_pow n)

/-- The binade exponent is a lower bound: `2 ^ ilog2 q ≤ q` for positive `q`. -/
theorem pow2_ilog2_le (q : ℚ) (hq : 0 < q) : pow2 (ilog2 q) ≤ q := by
  unfold ilog2
  simp only
  split_ifs with h
  · exact h
  · have hnum : 0 < q.num := Rat.num_pos.mpr hq
    have ha := natLog2_le q.num.natAbs (by omega)
    have hb := lt_natLog2 q.den
    rw [pow2_eq]
    have hden : (0 : ℚ) < q.den := by exact_mod_cast q.den_pos
    have hq' : q = (q.num.natAbs : ℚ) / (q.den : ℚ) := by
      have : ((q.num.natAbs : ℤ) : ℚ) = (q.num : ℚ) := by
        rw [Int.natAbs_of_nonneg hnum.le]
      rw [← Int.cast_natCast, this]
      exact (Rat.num_div_den q).symm
    have e1 : ((natLog2 q.num.natAbs : ℤ) - (natLog2 q.den : ℤ) - 1 : ℤ)
        = (natLog2 q.num.natAbs : ℤ) - ((natLog2 q.den + 1 : ℕ) : ℤ) := by push_cast; ring
    rw [e1, zpow_sub₀ (by norm_num), zpow_natCast, zpow_natCast]
    have ha' : ((2 : ℚ) ^ natLog2 q.num.natAbs) ≤ (q.num.natAbs : ℚ) := by exact_mod_cast ha
    have hb' : (q.den : ℚ) ≤ (2 : ℚ) ^ (natLog2 q.den + 1) := by exact_mod_cast hb.le
    calc (2 : ℚ) ^ natLog2 q.num.natAbs / 2 ^ (natLog2 q.den + 1)
        ≤ (q.num.natAbs : ℚ) / (q.den : ℚ) := div_le_div₀ (by positivity) ha' hden hb'
      _ = q := hq'.symm

/-- The binade exponent is exact: `q < 2 ^ (ilog2 q + 1)` for positive `q`. -/
theorem lt_pow2_ilog2 (q : ℚ) (hq : 0 < q) : q < pow2 (ilog2 q + 1) := by
  unfold ilog2
  simp only
  split_ifs with h
  · have hnum : 0 < q.num := Rat.num_pos.mpr hq
    have ha := lt_natLog2 q.num.natAbs
    have hb := natLog2_le q.den q.den_pos
    rw [pow2_eq]
    have hden : (0 : ℚ) < q.den := by exact_mod_cast q.den_pos
    have hq' : q = (q.num.natAbs : ℚ) / (q.den : ℚ) := by
      have : ((q.num.natAbs : ℤ) : ℚ) = (q.num : ℚ) := by
        rw [Int.natAbs_of_nonneg hnum.le]
      rw [← Int.cast_natCast, this]
      exact (Rat.num_div_den q).symm
    have e1 : ((natLog2 q.num.natAbs : ℤ) - (natLog2 q.den : ℤ) + 1 : ℤ)
        = ((natLog2 q.num.natAbs + 1 : ℕ) : ℤ) - (natLog2 q.den : ℤ) := by push_cast; ring
    rw [e1, zpow_sub₀ (by norm_num), zpow_natCast, zpow_natCast]
    have ha' : (q.num.natAbs : ℚ) < (2 : ℚ) ^ (natLog2 q.num.natAbs + 1) := by exact_mod_cast ha
    have hb' : ((2 : ℚ) ^ natLog2 q.den) ≤ (q.den : ℚ) := by exact_mod_cast hb
    calc q = (q.num.natAbs : ℚ) / (q.den : ℚ) := hq'
      _ < (2 : ℚ) ^ (natLog2 q.num.natAbs + 1) / (q.den : ℚ) :=
          div_lt_div_of_pos_right ha' hden
      _ ≤ (2 : ℚ) ^ (natLog2 q.num.natAbs + 1) / 2 ^ natLog2 q.den :=
          div_le_div_of_nonneg_left (by positivity) (by positivity) hb'
  · simpa using not_le.mp h

theorem ilog2_lt_of_lt {q : ℚ} {j : ℤ} (hq : 0 < q) (h : q < pow2 j) : ilog2 q < j := by
  have := lt_of_le_of_lt (pow2_ilog2_le q hq) h
  exact pow2_lt_pow2_iff.mp this

theorem roundEven_le {q : ℚ} {n : ℤ} (h : q ≤ n) : roundEven q ≤ n := by
  unfold roundEven
  simp only
  have hf : ⌊q⌋ ≤ n := Int.floor_le_floor h |>.trans (by simp)
  have hfl := Int.floor_le q
  split_ifs with h1 h2 h3
  · exact hf
  · rcases lt_or_eq_of_le hf with h' | h'
    · omega
    · exfalso
      have : (⌊q⌋ : ℚ) = n := by exact_mod_cast h'
      linarith
  · exact hf
  · rcases lt_or_eq_of_le hf with h' | h'
    · omega
    · exfalso
      have : (⌊q⌋ : ℚ) = n := by exact_mod_cast h'
      have : q - ⌊q⌋ = 1 / 2 := le_antisymm (not_lt.mp h2) (not_lt.mp h1)
      linarith

theorem le_roundEven {q : ℚ} {n : ℤ} (h : (n : ℚ) ≤ q) : n ≤ roundEven q := by
  unfold roundEven
  simp only
  have hf : n ≤ ⌊q⌋ := Int.le_floor.mpr h
  split_ifs <;> omega


/-- The rounding agrees with binary64 on familiar values: one tenth, one third, and the
two ties just above `2^53`, which go to the even significand. -/
theorem roundMag_examples :
    roundMag (1 / 10) = 3602879701896397 / 36028797018963968 ∧
    roundMag (1 / 3) = 6004799503160661 / 18014398509481984 ∧
    roundMag 9007199254740993 = 9007199254740992 ∧
    roundMag 9007199254740995 = 9007199254740996 := by
  decide!

theorem roundMag_zero : roundMag 0 = 0 := by simp [roundMag]

theorem ulpExp_le {q : ℚ} {j : ℤ} (hq : 0 < q) (hj : -1074 ≤ j) (hlt : q < pow2 (j + 53)) :
    ulpExp q ≤ j := by
  have := ilog2_lt_of_lt hq hlt
  unfold ulpExp
  exact max_le (by omega) hj

/-- A multiple of `2^j` is an integer multiple of every finer unit `2^e`, `e ≤ j`. -/
theorem grid_int {c : ℚ} {n : ℕ} {j e : ℤ} (hc : c = n * pow2 j) (he : e ≤ j) :
    ∃ N : ℤ, c / pow2 e = N := by
  refine ⟨n * 2 ^ (j - e).toNat, ?_⟩
  have h1 : pow2 j / pow2 e = (2 : ℚ) ^ (j - e).toNat := by
    rw [pow2_eq, pow2_eq, ← zpow_sub₀ (by norm_num), ← zpow_natCast]
    congr 1
    omega
  rw [hc, mul_div_assoc, h1]
  push_cast
  ring

/-- Rounding never crosses a representable upper bound. -/
theorem roundMag_le {q c : ℚ} {n : ℕ} {j : ℤ} (hq : 0 ≤ q) (hqc : q ≤ c) (hc : c = n * pow2 j)
    (hj : -1074 ≤ j) (hlt : q < pow2 (j + 53)) : roundMag q ≤ c := by
  rcases eq_or_lt_of_le hq with h0 | hpos
  · subst h0; rw [roundMag_zero]; exact hqc
  · unfold roundMag
    rw [if_neg hpos.ne']
    have he := ulpExp_le hpos hj hlt
    obtain ⟨N, hN⟩ := grid_int hc he
    have hp := pow2_pos (ulpExp q)
    have h1 : q / pow2 (ulpExp q) ≤ N := by
      rw [← hN]; exact div_le_div_of_nonneg_right hqc hp.le
    have h2 : ((roundEven (q / pow2 (ulpExp q)) : ℤ) : ℚ) ≤ N := by
      exact_mod_cast roundEven_le h1
    calc (roundEven (q / pow2 (ulpExp q)) : ℚ) * pow2 (ulpExp q)
        ≤ N * pow2 (ulpExp q) := mul_le_mul_of_nonneg_right h2 hp.le
      _ = c := by rw [← hN]; field_simp

/-- Rounding never crosses a representable lower bound. -/
theorem le_roundMag {q c : ℚ} {n : ℕ} {j : ℤ} (hq : 0 < q) (hcq : c ≤ q) (hc : c = n * pow2 j)
    (hj : -1074 ≤ j) (hlt : q < pow2 (j + 53)) : c ≤ roundMag q := by
  unfold roundMag
  rw [if_neg hq.ne']
  have he := ulpExp_le hq hj hlt
  obtain ⟨N, hN⟩ := grid_int hc he
  have hp := pow2_pos (ulpExp q)
  have h1 : (N : ℚ) ≤ q / pow2 (ulpExp q) := by
    rw [← hN]; exact div_le_div_of_nonneg_right hcq hp.le
  have h2 : (N : ℚ) ≤ ((roundEven (q / pow2 (ulpExp q)) : ℤ) : ℚ) := by
    exact_mod_cast le_roundEven h1
  calc c = N * pow2 (ulpExp q) := by rw [← hN]; field_simp
    _ ≤ (roundEven (q / pow2 (ulpExp q)) : ℚ) * pow2 (ulpExp q) :=
        mul_le_mul_of_nonneg_right h2 hp.le

theorem pow2_three : pow2 3 = 8 := by decide!
theorem pow2_four : pow2 4 = 16 := by decide!
theorem pow2_five : pow2 5 = 32 := by decide!
theorem pow2_six : pow2 6 = 64 := by decide!
theorem pow2_seven : pow2 7 = 128 := by decide!

theorem lt_pow2_1024 {q : ℚ} (h : q ≤ 2000000) : ¬ pow2 1024 ≤ q := by
  have h1 : pow2 21 ≤ pow2 1024 := pow2_le_pow2 (by norm_num)
  have h2 : pow2 21 = 2097152 := by decide!
  rw [h2] at h1
  intro h3
  linarith

theorem roundMag_nonneg {q : ℚ} (hq : 0 ≤ q) : 0 ≤ roundMag q := by
  unfold roundMag
  split_ifs with h0
  · exact le_refl _
  · have hpos : 0 < q := lt_of_le_of_ne hq (Ne.symm h0)
    have hp := pow2_pos (ulpExp q)
    have h1 : (0 : ℤ) ≤ roundEven (q / pow2 (ulpExp q)) :=
      le_roundEven (by
        simp only [Int.cast_zero]
        positivity)
    have h2 : (0 : ℚ) ≤ (roundEven (q / pow2 (ulpExp q)) : ℚ) := by
      exact_mod_cast h1
    positivity

theorem not_overflow_of_le {q : ℚ} (h : q ≤ 9223372036854775808) : ¬ pow2 1024 ≤ q := by
  have h1 : pow2 64 ≤ pow2 1024 := pow2_le_pow2 (by norm_num)
  have h2 : pow2 64 = 18446744073709551616 := by decide!
  rw [h2] at h1
  intro h3
  linarith

/-- The quotient `float64(k) / (1 << 63)` of a 63-bit integer is a finite float between
0 and 1. -/
theorem int63Quotient_bounds (k : Nat) (hk : k < 2 ^ 63) :
    ∃ r : ℚ, int63Quotient k = F64.fin false r ∧ 0 ≤ r ∧ r ≤ 1 := by
  have hk0 : (0 : ℚ) ≤ (k : ℚ) := by positivity
  have hk1 : (k : ℚ) ≤ 9223372036854775808 := by
    have : k ≤ 9223372036854775808 := by
      have : (2 : ℕ) ^ 63 = 9223372036854775808 := by norm_num
      omega
    exact_mod_cast this
  have h63 : pow2 63 = 9223372036854775808 := by decide!
  have hale : roundMag (k : ℚ) ≤ 9223372036854775808 :=
    roundMag_le (n := 1) (j := 63) hk0 hk1 (by rw [h63]; norm_num) (by norm_num)
      (by have : pow2 (63 + 53) = 83076749736557242056487941267521536 := by decide!
          rw [this]; linarith)
  have hage : 0 ≤ roundMag (k : ℚ) := roundMag_nonneg hk0
  set a := roundMag (k : ℚ) with ha
  have hq0 : 0 ≤ a / 9223372036854775808 := by positivity
  have hq1 : a / 9223372036854775808 ≤ 1 := by
    rw [div_le_one (by norm_num)]; exact hale
  have h0 : pow2 0 = 1 := by decide!
  have hrle : roundMag (a / 9223372036854775808) ≤ 1 :=
    roundMag_le (n := 1) (j := 0) hq0 hq1 (by rw [h0]; norm_num) (by norm_num)
      (by have : pow2 (0 + 53) = 9007199254740992 := by decide!
          rw [this]; linarith)
  refine ⟨roundMag (a / 9223372036854775808), ?_, roundMag_nonneg hq0, hrle⟩
  unfold int63Quotient F64.ofInt
  have hneg : decide ((k : ℤ) < 0) = false := by simp
  have habs : (((|(k : ℤ)| : ℤ)) : ℚ) = (k : ℚ) := by simp
  rw [hneg, habs]
  simp only [F64.round]
  rw [if_neg (not_overflow_of_le hale), ← ha]
  simp only [F64.div, F64.round, Bool.xor_false]
  rw [if_neg (by norm_num : ¬ ((9223372036854775808 : ℚ) = 0)),
    if_neg (not_overflow_of_le (show roundMag (a / 9223372036854775808) ≤ 9223372036854775808
      by linarith))]

/-- The quotient on familiar integers: `1` gives `2^(-63)`, `(2^52 + 1) * 2^9` gives
`(2^52 + 1) / 2^54`, `2^63 - 513` rounds down to `1 - 2^(-53)`, and `2^63 - 512` rounds up
to 1, the value that is drawn again. -/
theorem int63Quotient_examples :
    int63Quotient 1 = F64.fin false (1 / 9223372036854775808) ∧
    int63Quotient 2305843009213694464
      = F64.fin false (4503599627370497 / 18014398509481984) ∧
    int63Quotient 9223372036854775295
      = F64.fin false (9007199254740991 / 9007199254740992) ∧
    int63Quotient 9223372036854775296 = F64.fin false 1 := by
  decide!

/-- The float returned by `rand.Float64()` lies in the half-open interval `[0, 1)`. -/
theorem rand_Float64_range (g : Source) :
    ∃ r : ℚ, (rand.Float64 g).1 = F64.fin false r ∧ 0 ≤ r ∧ r < 1 := by
  obtain ⟨r, hr, hr0, hr1⟩ := int63Quotient_bounds (g 0).int63 (g 0).lt
  refine ⟨r, hr, hr0, lt_of_le_of_ne hr1 ?_⟩
  intro h1
  apply (g 0).accepted
  rw [hr, h1]

/-- The product `rand.Float64()*1000.0` is a finite float between 0 and 1000. -/
theorem draw_times_thousand (g : Source) :
    ∃ x : ℚ, F64.mul (rand.Float64 g).1 thousand = F64.fin false x ∧ 0 ≤ x ∧ x ≤ 1000 := by
  obtain ⟨r, hr, hr0, hr1⟩ := int63Quotient_bounds (g 0).int63 (g 0).lt
  have hq0 : 0 ≤ r * 1000 := by positivity
  have hq1 : r * 1000 ≤ 1000 := by linarith
  have hle : roundMag (r * 1000) ≤ 1000 :=
    roundMag_le (n := 125) (j := 3) hq0 hq1 (by rw [pow2_three]; norm_num) (by norm_num)
      (by have : pow2 (3 + 53) = 72057594037927936 := by decide!
          rw [this]; linarith)
  refine ⟨roundMag (r * 1000), ?_, roundMag_nonneg hq0, hle⟩
  show F64.mul (int63Quotient (g 0).int63) (F64.fin false 1000) = _
  rw [hr]
  simp only [F64.mul, F64.round, Bool.xor_false]
  rw [if_neg (lt_pow2_1024 (by linarith))]

/-- The multiplier `1000.0 + rand.Float64()*1000.0` is a finite float between 1000 and
2000, both ends included. -/
theorem multiplier_bounds (g : Source) :
    ∃ y : ℚ, multiplier (rand.Float64 g).1 = F64.fin false y ∧ 1000 ≤ y ∧ y ≤ 2000 := by
  obtain ⟨x, hx, hx0, hx1⟩ := draw_times_thousand g
  have hv0 : (0 : ℚ) < 1000 + x := by linarith
  have hle : roundMag (1000 + x) ≤ 2000 :=
    roundMag_le (n := 125) (j := 4) hv0.le (by linarith) (by rw [pow2_four]; norm_num)
      (by norm_num)
      (by have : pow2 (4 + 53) = 144115188075855872 := by decide!
          rw [this]; linarith)
  have hge : 1000 ≤ roundMag (1000 + x) :=
    le_roundMag (n := 125) (j := 3) hv0 (by linarith) (by rw [pow2_three]; norm_num)
      (by norm_num)
      (by have : pow2 (3 + 53) = 72057594037927936 := by decide!
          rw [this]; linarith)
  refine ⟨roundMag (1000 + x), ?_, hge, hle⟩
  unfold multiplier
  rw [hx]
  simp only [thousand, F64.add, F64.signed, F64.round]
  have hne : ¬ ((1000 : ℚ) + x = 0) := hv0.ne'
  have hnn : ¬ ((1000 : ℚ) + x < 0) := not_lt.mpr hv0.le
  simp [hne, hnn, abs_of_pos hv0, lt_pow2_1024 (show roundMag (1000 + x) ≤ 2000000 by linarith)]

/-! ## The merge step -/

theorem ofInt_zero : F64.ofInt 0 = F64.fin false 0 := by decide!

theorem ofInt_thousand : F64.ofInt 1000 = F64.fin false 1000 := by decide!

/-- With population 1000 and rate 2.0, a multiplier in `[1000, 2000]` gives a finite GDP
in `[500000, 1000000]`. -/
theorem estimatedGDP_testland {y : ℚ} (h0 : 1000 ≤ y) (h1 : y ≤ 2000) :
    ∃ w : ℚ, estimatedGDP 1000 (F64.fin false y) (F64.fin false 2) = F64.fin false w ∧
      500000 ≤ w ∧ w ≤ 1000000 := by
  have hq0 : (0 : ℚ) < 1000 * y := by linarith
  have hzle : roundMag (1000 * y) ≤ 2000000 :=
    roundMag_le (n := 15625) (j := 7) hq0.le (by linarith) (by rw [pow2_seven]; norm_num)
      (by norm_num)
      (by have : pow2 (7 + 53) = 1152921504606846976 := by decide!
          rw [this]; linarith)
  have hzge : 1000000 ≤ roundMag (1000 * y) :=
    le_roundMag (n := 15625) (j := 6) hq0 (by linarith) (by rw [pow2_six]; norm_num)
      (by norm_num)
      (by have : pow2 (6 + 53) = 576460752303423488 := by decide!
          rw [this]; linarith)
  set z := roundMag (1000 * y) with hz
  have hz0 : (0 : ℚ) < z / 2 := by linarith
  have hwle : roundMag (z / 2) ≤ 1000000 :=
    roundMag_le (n := 15625) (j := 6) hz0.le (by linarith) (by rw [pow2_six]; norm_num)
      (by norm_num)
      (by have : pow2 (6 + 53) = 576460752303423488 := by decide!
          rw [this]; linarith)
  have hwge : 500000 ≤ roundMag (z / 2) :=
    le_roundMag (n := 15625) (j := 5) hz0 (by linarith) (by rw [pow2_five]; norm_num)
      (by norm_num)
      (by have : pow2 (5 + 53) = 288230376151711744 := by decide!
          rw [this]; linarith)
  refine ⟨roundMag (z / 2), ?_, hwge, hwle⟩
  unfold estimatedGDP
  rw [ofInt_thousand]
  simp only [F64.mul, F64.round, Bool.xor_false]
  rw [if_neg (lt_pow2_1024 (show roundMag (1000 * y) ≤ 2000000 from hzle))]
  simp only [F64.div, F64.round, Bool.xor_false]
  rw [if_neg (by norm_num : ¬ ((2 : ℚ) = 0)), ← hz,
    if_neg (lt_pow2_1024 (show roundMag (z / 2) ≤ 2000000 by linarith))]

/-- With population zero and a positive finite rate, the GDP is the float zero. -/
theorem estimatedGDP_zero {y b : ℚ} (hb : 0 < b) :
    estimatedGDP 0 (F64.fin false y) (F64.fin false b) = F64.fin false 0 := by
  unfold estimatedGDP
  rw [ofInt_zero]
  have h1024 : ¬ pow2 1024 ≤ (0 : ℚ) := not_le.mpr (pow2_pos _)
  simp [F64.mul, F64.div, F64.round, roundMag_zero, hb.ne', h1024]

/-- C1, counterexample: in the spec scenario (population 1000, TST at 2.0) with the draw
`1 - 2^(-53)`, the float sum `1000.0 + r*1000.0` rounds to exactly 2000.0 and the
estimated GDP is exactly 1000000, which is outside `[500000, 1000000)`. -/
theorem buildCountry_gdp_reaches_upper_end :
    multiplier (rand.Float64 lastDraw).1 = F64.fin false 2000 ∧
    (buildCountry testland tstRates 1 lastDraw).1.EstimatedGDP
      = some (F64.fin false 1000000) ∧
    ¬ ∃ w : ℚ, (buildCountry testland tstRates 1 lastDraw).1.EstimatedGDP
        = some (F64.fin false w) ∧ 500000 ≤ w ∧ w < 1000000 := by
  have h1 : multiplier (rand.Float64 lastDraw).1 = F64.fin false 2000 := by decide!
  have h2 : (buildCountry testland tstRates 1 lastDraw).1.EstimatedGDP
      = some (F64.fin false 1000000) := by decide!
  refine ⟨h1, h2, ?_⟩
  rintro ⟨w, hw, -, hlt⟩
  rw [h2] at hw
  injection hw with hw
  injection hw with _ hw
  rw [← hw] at hlt
  exact lt_irrefl _ hlt

/-- C1 (amended): in the record built by the merge step, EstimatedGDP is set exactly when
ExchangeRate is set; when set it is the float64 value of
`float64(Population) * multiplier / ExchangeRate` for the drawn multiplier, a float with
`1000 ≤ multiplier ≤ 2000` (the upper end is reached); a population of zero with a
positive rate gives a GDP that is set and zero; and population 1000 with first currency
TST at rate 2.0 gives currency code TST, exchange rate 2.0 and a GDP in the closed
range `[500000, 1000000]`. -/
theorem buildCountry_estimatedGDP (extCountry : ExternalCountry) (exchangeRates : ExchangeRates)
    (now : Time) (g : Source) :
    ((buildCountry extCountry exchangeRates now g).1.EstimatedGDP.isSome
      ↔ (buildCountry extCountry exchangeRates now g).1.ExchangeRate.isSome) ∧
    (∀ rate, (buildCountry extCountry exchangeRates now g).1.ExchangeRate = some rate →
      ∃ y : ℚ, 1000 ≤ y ∧ y ≤ 2000 ∧ multiplier (rand.Float64 g).1 = F64.fin false y ∧
        (buildCountry extCountry exchangeRates now g).1.EstimatedGDP
          = some (estimatedGDP extCountry.Population (F64.fin false y) rate)) ∧
    (∀ b : ℚ, 0 < b → extCountry.Population = 0 →
      (buildCountry extCountry exchangeRates now g).1.ExchangeRate = some (F64.fin false b) →
      (buildCountry extCountry exchangeRates now g).1.EstimatedGDP = some (F64.fin false 0)) ∧
    (∀ rest, extCountry.Population = 1000 → extCountry.Currencies = ⟨"TST"⟩ :: rest →
      exchangeRates.Rates "TST" = some (F64.fin false 2) →
      (buildCountry extCountry exchangeRates now g).1.CurrencyCode = "TST" ∧
      (buildCountry extCountry exchangeRates now g).1.ExchangeRate = some (F64.fin false 2) ∧
      ∃ w : ℚ, (buildCountry extCountry exchangeRates now g).1.EstimatedGDP
          = some (F64.fin false w) ∧ 500000 ≤ w ∧ w ≤ 1000000) := by
  obtain ⟨y, hy, hy0, hy1⟩ := multiplier_bounds g
  have key : ∀ rate, (buildCountry extCountry exchangeRates now g).1.ExchangeRate = some rate →
      (buildCountry extCountry exchangeRates now g).1.EstimatedGDP
        = some (estimatedGDP extCountry.Population (F64.fin false y) rate) := by
    intro rate h
    unfold buildCountry at h ⊢
    cases hc : extCountry.Currencies with
    | nil => simp [hc] at h
    | cons first rest =>
      simp only [hc] at h ⊢
      cases hr : exchangeRates.Rates first.Code with
      | none => simp [hr] at h
      | some rate0 =>
        simp only [hr] at h ⊢
        injection h with h
        subst h
        rw [hy]
  refine ⟨?_, ?_, ?_, ?_⟩
  · unfold buildCountry
    cases hc : extCountry.Currencies with
    | nil => simp
    | cons first rest =>
      cases hr : exchangeRates.Rates first.Code with
      | none => simp [hr]
      | some rate0 => simp [hr]
  · intro rate h
    exact ⟨y, hy0, hy1, hy, key rate h⟩
  · intro b hb hpop h
    rw [key _ h, hpop, estimatedGDP_zero hb]
  · intro rest hpop hcur hrate
    have hbuild : (buildCountry extCountry exchangeRates now g).1.CurrencyCode = "TST" ∧
        (buildCountry extCountry exchangeRates now g).1.ExchangeRate
          = some (F64.fin false 2) := by
      unfold buildCountry
      simp [hcur, hrate]
    refine ⟨hbuild.1, hbuild.2, ?_⟩
    obtain ⟨w, hw, hw0, hw1⟩ := estimatedGDP_testland hy0 hy1
    exact ⟨w, by rw [key _ hbuild.2, hpop, hw], hw0, hw1⟩

/-- C1, witness: the amended statement at the spec scenario with the extreme draw. -/
theorem buildCountry_estimatedGDP_testland :
    (buildCountry testland tstRates 1 lastDraw).1.CurrencyCode = "TST" ∧
    (buildCountry testland tstRates 1 lastDraw).1.ExchangeRate = some (F64.fin false 2) ∧
    ∃ w : ℚ, (buildCountry testland tstRates 1 lastDraw).1.EstimatedGDP
        = some (F64.fin false w) ∧ 500000 ≤ w ∧ w ≤ 1000000 :=
  (buildCountry_estimatedGDP testland tstRates 1 lastDraw).2.2.2 [] (by decide) (by decide)
    (by decide)

/-! ## Facts about the store statements -/

theorem buildCountry_ID (ext : ExternalCountry) (rates : ExchangeRates) (now : Time)
    (g : Source) : (buildCountry ext rates now g).1.ID = 0 := by
  unfold buildCountry
  cases ext.Currencies with
  | nil => rfl
  | cons first rest =>
    simp only
    cases rates.Rates first.Code <;> rfl

theorem buildCountry_Name (ext : ExternalCountry) (rates : ExchangeRates) (now : Time)
    (g : Source) : (buildCountry ext rates now g).1.Name = ext.Name := by
  unfold buildCountry
  cases ext.Currencies with
  | nil => rfl
  | cons first rest =>
    simp only
    cases rates.Rates first.Code <;> rfl

theorem buildCountry_LastRefreshedAt (ext : ExternalCountry) (rates : ExchangeRates)
    (now : Time) (g : Source) : (buildCountry ext rates now g).1.LastRefreshedAt = now := by
  unfold buildCountry
  cases ext.Currencies with
  | nil => rfl
  | cons first rest =>
    simp only
    cases rates.Rates first.Code <;> rfl

theorem First_fails (db : DB) (name : String) : First db name true = FirstResult.otherError := by
  simp [First]

theorem First_found {db : DB} {name : String} {fails : Bool} {e : Country}
    (h : First db name fails = FirstResult.found e) :
    e ∈ db.rows ∧ LOWER e.Name = LOWER name := by
  unfold First at h
  split_ifs at h
  split at h
  · rename_i r hr
    injection h with h
    subst h
    have := List.argmin_mem hr
    simpa using this
  · cases h

theorem First_recordNotFound {db : DB} {name : String} {fails : Bool}
    (h : First db name fails = FirstResult.recordNotFound) :
    ∀ r ∈ db.rows, LOWER r.Name ≠ LOWER name := by
  unfold First at h
  split_ifs at h
  split at h
  · cases h
  · rename_i hr
    rw [List.argmin_eq_none] at hr
    intro r hr' hname
    have : r ∈ db.rows.filter fun r => LOWER r.Name = LOWER name := by simp [hr', hname]
    rw [hr] at this
    cases this

theorem First_otherError {db : DB} {name : String} {fails : Bool}
    (h : First db name fails = FirstResult.otherError) : fails = true := by
  unfold First at h
  split_ifs at h with hf
  · exact hf
  · split at h <;> cases h

theorem First_of_key_mem {db : DB} {name : String} (h : LOWER name ∈ db.keys) :
    ∃ e, First db name false = FirstResult.found e := by
  cases hF : First db name false with
  | found e => exact ⟨e, rfl⟩
  | recordNotFound =>
    exfalso
    obtain ⟨r, hr, hk⟩ := List.mem_map.mp h
    exact First_recordNotFound hF r hr hk
  | otherError => cases First_otherError hF

theorem assignNonZero_ID (r v : Country) (hv : v.ID = 0) : (assignNonZero r v).ID = r.ID := by
  simp [assignNonZero, hv]

theorem assignNonZero_key (r v : Country) (h : LOWER r.Name = LOWER v.Name) :
    LOWER (assignNonZero r v).Name = LOWER r.Name := by
  unfold assignNonZero
  simp only
  split_ifs
  · rfl
  · exact h.symm

theorem assignNonZero_LastRefreshedAt (r v : Country) (h : v.LastRefreshedAt ≠ 0) :
    (assignNonZero r v).LastRefreshedAt = v.LastRefreshedAt := by
  simp [assignNonZero, h]

/-- In a table with distinct primary keys, a row is determined by its key. -/
theorem eq_of_ID_eq {db : DB} (hwf : db.WF) {r e : Country} (hr : r ∈ db.rows)
    (he : e ∈ db.rows) (h : r.ID = e.ID) : r = e :=
  List.inj_on_of_nodup_map hwf.1 hr he h

theorem Updates_fails (db : DB) (e c : Country) : (Updates db e c true).1 = db := by
  simp [Updates]

theorem Updates_autoIncrement (db : DB) (e c : Country) (f : Bool) :
    (Updates db e c f).1.autoIncrement = db.autoIncrement := by
  unfold Updates
  split_ifs <;> rfl

theorem Updates_length (db : DB) (e c : Country) (f : Bool) :
    (Updates db e c f).1.rows.length = db.rows.length := by
  unfold Updates
  split_ifs <;> simp

theorem Updates_ids (db : DB) (e c : Country) (f : Bool) (hc : c.ID = 0) :
    (Updates db e c f).1.ids = db.ids := by
  unfold Updates
  split_ifs
  · rfl
  · rfl
  · simp only [DB.ids, List.map_map]
    apply List.map_congr_left
    intro r _
    simp only [Function.comp]
    split_ifs
    · exact assignNonZero_ID r c hc
    · rfl

theorem Updates_keys {db : DB} (hwf : db.WF) {e c : Country} (f : Bool) (he : e ∈ db.rows)
    (hk : LOWER e.Name = LOWER c.Name) : (Updates db e c f).1.keys = db.keys := by
  unfold Updates
  split_ifs
  · rfl
  · rfl
  · simp only [DB.keys, List.map_map]
    apply List.map_congr_left
    intro r hr
    simp only [Function.comp]
    split_ifs with h
    · have : r = e := eq_of_ID_eq hwf hr he h
      subst this
      exact assignNonZero_key r c hk
    · rfl

theorem Updates_WF {db : DB} (hwf : db.WF) (e c : Country) (f : Bool) (hc : c.ID = 0) :
    (Updates db e c f).1.WF := by
  unfold DB.WF
  rw [Updates_ids db e c f hc, Updates_autoIncrement]
  exact hwf

/-- Rows with another primary key are not touched by `Updates`. -/
theorem Updates_frame {db : DB} {e c r : Country} (f : Bool) (hr : r ∈ db.rows)
    (hne : r.ID ≠ e.ID) : r ∈ (Updates db e c f).1.rows := by
  unfold Updates
  split_ifs
  · exact hr
  · exact hr
  · simp only [List.mem_map]
    exact ⟨r, hr, by rw [if_neg hne]⟩

/-- Every row after `Updates` is an old row or the rewritten target row. -/
theorem Updates_mem {db : DB} (hwf : db.WF) {e c r : Country} {f : Bool} (he : e ∈ db.rows)
    (hr : r ∈ (Updates db e c f).1.rows) : r ∈ db.rows ∨ r = assignNonZero e c := by
  unfold Updates at hr
  split_ifs at hr
  · exact Or.inl hr
  · exact Or.inl hr
  · simp only [List.mem_map] at hr
    obtain ⟨r0, hr0, h⟩ := hr
    split_ifs at h with hid
    · right
      have : r0 = e := eq_of_ID_eq hwf hr0 he hid
      rw [← h, this]
    · left
      rw [← h]; exact hr0

theorem Create_fails (db : DB) (c : Country) : (Create db c true).1 = db := by
  simp [Create]

theorem Create_ok (db : DB) (c : Country) (hc : c.ID = 0) :
    (Create db c false).1 = { rows := db.rows ++ [{ c with ID := db.autoIncrement }]
                              autoIncrement := db.autoIncrement + 1 } := by
  simp [Create, hc]

theorem Create_cases (db : DB) (c : Country) (f : Bool) (hc : c.ID = 0) :
    (Create db c f).1 = db ∨
    (Create db c f).1 = { rows := db.rows ++ [{ c with ID := db.autoIncrement }]
                          autoIncrement := db.autoIncrement + 1 } := by
  cases f
  · exact Or.inr (Create_ok db c hc)
  · exact Or.inl (Create_fails db c)

theorem Create_WF {db : DB} (hwf : db.WF) (c : Country) (f : Bool) (hc : c.ID = 0) :
    (Create db c f).1.WF := by
  rcases Create_cases db c f hc with h | h
  · rw [h]; exact hwf
  · rw [h]
    obtain ⟨h1, h2, h3⟩ := hwf
    refine ⟨?_, by simp, ?_⟩
    · simp only [DB.ids, List.map_append, List.map_cons, List.map_nil]
      rw [List.nodup_append]
      refine ⟨h1, by simp, ?_⟩
      intro a ha hb
      simp only [List.mem_singleton] at hb
      have := (h3 a ha).2
      omega
    · intro i hi
      simp only [DB.ids, List.map_append, List.map_cons, List.map_nil, List.mem_append,
        List.mem_singleton] at hi
      rcases hi with hi | hi
      · have := h3 i hi
        simp only
        omega
      · subst hi
        simp only
        omega

theorem Create_frame {db : DB} {c r : Country} (f : Bool) (hc : c.ID = 0)
    (hr : r ∈ db.rows) : r ∈ (Create db c f).1.rows := by
  rcases Create_cases db c f hc with h | h
  · rw [h]; exact hr
  · rw [h]; simp [hr]

theorem Create_NamesDistinct {db : DB} (hnd : db.NamesDistinct) (c : Country) (f : Bool)
    (hc : c.ID = 0) (hnew : ∀ r ∈ db.rows, LOWER r.Name ≠ LOWER c.Name) :
    (Create db c f).1.NamesDistinct := by
  rcases Create_cases db c f hc with h | h
  · rw [h]; exact hnd
  · rw [h]
    unfold DB.NamesDistinct DB.keys at hnd ⊢
    simp only [List.map_append, List.map_cons, List.map_nil]
    rw [List.nodup_append]
    refine ⟨hnd, by simp, ?_⟩
    intro a ha hb
    simp only [List.mem_singleton] at hb
    obtain ⟨r, hr, hk⟩ := List.mem_map.mp ha
    exact hnew r hr (hk.trans hb)

theorem Create_key_mono {db : DB} {c : Country} (f : Bool) (hc : c.ID = 0) {k : String}
    (hk : k ∈ db.keys) : k ∈ (Create db c f).1.keys := by
  obtain ⟨r, hr, h⟩ := List.mem_map.mp hk
  exact List.mem_map.mpr ⟨r, Create_frame f hc hr, h⟩

/-! ## Facts about the reconciliation loop -/

theorem refreshLoop_nil (rates : ExchangeRates) (now : Time) (faults : Nat → Fault)
    (g : Source) (db : DB) : refreshLoop rates now [] faults g db = (true, db, g) := rfl

theorem refreshLoop_cons (rates : ExchangeRates) (now : Time) (ext : ExternalCountry)
    (rest : List ExternalCountry) (faults : Nat → Fault) (g : Source) (db : DB) :
    refreshLoop rates now (ext :: rest) faults g db =
      match First db (buildCountry ext rates now g).1.Name (decide (faults 0 = Fault.lookup)) with
      | FirstResult.found existingCountry =>
        refreshLoop rates now rest (fun i => faults (i + 1)) (buildCountry ext rates now g).2
          (Updates db existingCountry (buildCountry ext rates now g).1
            (decide (faults 0 = Fault.write))).1
      | FirstResult.recordNotFound =>
        refreshLoop rates now rest (fun i => faults (i + 1)) (buildCountry ext rates now g).2
          (Create db (buildCountry ext rates now g).1 (decide (faults 0 = Fault.write))).1
      | FirstResult.otherError => (false, db, (buildCountry ext rates now g).2) := rfl

/-- Induction principle for the loop: a property of the store that every `Updates` of a
found row and every `Create` after a failed lookup preserves holds after the loop. -/
theorem refreshLoop_invariant {rates : ExchangeRates} {now : Time} (P : DB → Prop)
    (Q : Country → Prop)
    (hU : ∀ db e c f, P db → Q c → e ∈ db.rows → LOWER e.Name = LOWER c.Name →
      P (Updates db e c f).1)
    (hC : ∀ db c f, P db → Q c → (∀ r ∈ db.rows, LOWER r.Name ≠ LOWER c.Name) →
      P (Create db c f).1)
    (cs : List ExternalCountry) (hQ : ∀ ext ∈ cs, ∀ g, Q (buildCountry ext rates now g).1)
    (faults : Nat → Fault) (g : Source) (db : DB) (h : P db) :
    P (refreshLoop rates now cs faults g db).2.1 := by
  induction cs generalizing faults g db with
  | nil => exact h
  | cons ext rest ih =>
    have hQ' : ∀ e ∈ rest, ∀ g, Q (buildCountry e rates now g).1 :=
      fun e he => hQ e (List.mem_cons_of_mem _ he)
    rw [refreshLoop_cons]
    cases hF : First db (buildCountry ext rates now g).1.Name (decide (faults 0 = Fault.lookup)) with
    | found e =>
      obtain ⟨he, hk⟩ := First_found hF
      exact ih hQ' _ _ _ (hU db e _ _ h (hQ ext (List.mem_cons_self _ _) g) he hk)
    | recordNotFound =>
      exact ih hQ' _ _ _ (hC db _ _ h (hQ ext (List.mem_cons_self _ _) g)
        (First_recordNotFound hF))
    | otherError => exact h

/-- The primary-key invariant survives the loop. -/
theorem refreshLoop_WF (rates : ExchangeRates) (now : Time) (cs : List ExternalCountry)
    (faults : Nat → Fault) (g : Source) (db : DB) (h : db.WF) :
    (refreshLoop rates now cs faults g db).2.1.WF :=
  refreshLoop_invariant (fun db => db.WF) (fun c => c.ID = 0)
    (fun _ e c f hp hq _ _ => Updates_WF hp e c f hq)
    (fun _ c f hp hq _ => Create_WF hp c f hq)
    cs (fun ext _ g => buildCountry_ID ext rates now g) faults g db h

/-- Case-insensitive uniqueness of names survives the loop. -/
theorem refreshLoop_NamesDistinct (rates : ExchangeRates) (now : Time)
    (cs : List ExternalCountry) (faults : Nat → Fault) (g : Source) (db : DB)
    (hwf : db.WF) (hnd : db.NamesDistinct) :
    (refreshLoop rates now cs faults g db).2.1.NamesDistinct :=
  (refreshLoop_invariant (fun db => db.WF ∧ db.NamesDistinct) (fun c => c.ID = 0)
    (fun _ e c f hp hq he hk =>
      ⟨Updates_WF hp.1 e c f hq, by
        unfold DB.NamesDistinct
        rw [Updates_keys hp.1 f he hk]
        exact hp.2⟩)
    (fun _ c f hp hq hnew => ⟨Create_WF hp.1 c f hq, Create_NamesDistinct hp.2 c f hq hnew⟩)
    cs (fun ext _ g => buildCountry_ID ext rates now g) faults g db ⟨hwf, hnd⟩).2

/-- The loop never shortens the table. -/
theorem refreshLoop_length_le (rates : ExchangeRates) (now : Time) (cs : List ExternalCountry)
    (faults : Nat → Fault) (g : Source) (db : DB) :
    db.rows.length ≤ (refreshLoop rates now cs faults g db).2.1.rows.length :=
  refreshLoop_invariant (fun d => db.rows.length ≤ d.rows.length) (fun c => c.ID = 0)
    (fun d e c f hp _ _ _ => by
      show db.rows.length ≤ (Updates d e c f).1.rows.length
      rw [Updates_length]; exact hp)
    (fun d c f hp hq _ => by
      show db.rows.length ≤ (Create d c f).1.rows.length
      have hp' : db.rows.length ≤ d.rows.length := hp
      rcases Create_cases d c f hq with h | h
      · rw [h]; exact hp'
      · rw [h]; simp only [List.length_append, List.length_singleton]; omega)
    cs (fun ext _ g => buildCountry_ID ext rates now g) faults g db (le_refl _)

/-- A row whose name matches no upstream record is carried through the loop unchanged. -/
theorem refreshLoop_frame (rates : ExchangeRates) (now : Time) (cs : List ExternalCountry)
    (faults : Nat → Fault) (g : Source) (db : DB) (hwf : db.WF) (r : Country)
    (hr : r ∈ db.rows) (hno : ∀ ext ∈ cs, LOWER ext.Name ≠ LOWER r.Name) :
    r ∈ (refreshLoop rates now cs faults g db).2.1.rows :=
  (refreshLoop_invariant (fun d => d.WF ∧ r ∈ d.rows)
    (fun c => c.ID = 0 ∧ LOWER c.Name ≠ LOWER r.Name)
    (fun d e c f hp hq he hk =>
      ⟨Updates_WF hp.1 e c f hq.1, Updates_frame f hp.2 (by
        intro hid
        have : r = e := eq_of_ID_eq hp.1 hp.2 he hid
        subst this
        exact hq.2 hk.symm)⟩)
    (fun d c f hp hq _ => ⟨Create_WF hp.1 c f hq.1, Create_frame f hq.1 hp.2⟩)
    cs (fun ext hext g => ⟨buildCountry_ID ext rates now g, by
      rw [buildCountry_Name]; exact hno ext hext⟩) faults g db ⟨hwf, hr⟩).2

/-- A name that has a matching row keeps one through the loop. -/
theorem refreshLoop_key_mono (rates : ExchangeRates) (now : Time) (cs : List ExternalCountry)
    (faults : Nat → Fault) (g : Source) (db : DB) (hwf : db.WF) (k : String)
    (hk : k ∈ db.keys) : k ∈ (refreshLoop rates now cs faults g db).2.1.keys :=
  (refreshLoop_invariant (fun d => d.WF ∧ k ∈ d.keys) (fun c => c.ID = 0)
    (fun d e c f hp hq he hke =>
      ⟨Updates_WF hp.1 e c f hq, by rw [Updates_keys hp.1 f he hke]; exact hp.2⟩)
    (fun d c f hp hq _ => ⟨Create_WF hp.1 c f hq, Create_key_mono f hq hp.2⟩)
    cs (fun ext _ g => buildCountry_ID ext rates now g) faults g db ⟨hwf, hk⟩).2

theorem noFaults_shift : (fun i => noFaults (i + 1)) = noFaults := rfl

/-- When no lookup fails, the loop runs to its end. -/
theorem refreshLoop_completes (rates : ExchangeRates) (now : Time) (cs : List ExternalCountry)
    (faults : Nat → Fault) (g : Source) (db : DB) (h : ∀ i, faults i ≠ Fault.lookup) :
    (refreshLoop rates now cs faults g db).1 = true := by
  induction cs generalizing faults g db with
  | nil => rfl
  | cons ext rest ih =>
    rw [refreshLoop_cons]
    have h0 : decide (faults 0 = Fault.lookup) = false := by simpa using h 0
    rw [h0]
    cases hF : First db (buildCountry ext rates now g).1.Name false with
    | found e => exact ih _ _ _ (fun i => h (i + 1))
    | recordNotFound => exact ih _ _ _ (fun i => h (i + 1))
    | otherError => cases First_otherError hF

/-- A lookup failure at position `k` stops the loop with the store as the first `k`
records left it. -/
theorem refreshLoop_abort (rates : ExchangeRates) (now : Time) (k : Nat)
    (cs : List ExternalCountry) (faults : Nat → Fault) (g : Source) (db : DB)
    (hk : k < cs.length) (hbefore : ∀ j < k, faults j ≠ Fault.lookup)
    (hat : faults k = Fault.lookup) :
    (refreshLoop rates now cs faults g db).1 = false ∧
    (refreshLoop rates now (cs.take k) faults g db).1 = true ∧
    (refreshLoop rates now cs faults g db).2.1
      = (refreshLoop rates now (cs.take k) faults g db).2.1 := by
  induction k generalizing cs faults g db with
  | zero =>
    cases cs with
    | nil => simp at hk
    | cons ext rest =>
      rw [refreshLoop_cons]
      have h0 : decide (faults 0 = Fault.lookup) = true := by simpa using hat
      rw [h0, First_fails]
      exact ⟨rfl, rfl, rfl⟩
  | succ k ih =>
    cases cs with
    | nil => simp at hk
    | cons ext rest =>
      have hk' : k < rest.length := by simpa using hk
      have h0 : decide (faults 0 = Fault.lookup) = false := by
        simpa using hbefore 0 (Nat.succ_pos k)
      rw [List.take_succ_cons, refreshLoop_cons, refreshLoop_cons, h0]
      cases hF : First db (buildCountry ext rates now g).1.Name false with
      | found e =>
        exact ih rest _ _ _ hk' (fun j hj => hbefore (j + 1) (by omega)) hat
      | recordNotFound =>
        exact ih rest _ _ _ hk' (fun j hj => hbefore (j + 1) (by omega)) hat
      | otherError => cases First_otherError hF

/-- A row of the final table whose name matches no upstream record was there before. -/
theorem refreshLoop_frame_back (rates : ExchangeRates) (now : Time)
    (cs : List ExternalCountry) (faults : Nat → Fault) (g : Source) (db : DB) (hwf : db.WF)
    (r : Country) (hr : r ∈ (refreshLoop rates now cs faults g db).2.1.rows)
    (hno : ∀ ext ∈ cs, LOWER ext.Name ≠ LOWER r.Name) : r ∈ db.rows := by
  induction cs generalizing faults g db with
  | nil => exact hr
  | cons ext rest ih =>
    have hno' : ∀ e ∈ rest, LOWER e.Name ≠ LOWER r.Name :=
      fun e he => hno e (List.mem_cons_of_mem _ he)
    have hne : LOWER (buildCountry ext rates now g).1.Name ≠ LOWER r.Name := by
      rw [buildCountry_Name]; exact hno ext (List.mem_cons_self _ _)
    have hid := buildCountry_ID ext rates now g
    rw [refreshLoop_cons] at hr
    cases hF : First db (buildCountry ext rates now g).1.Name (decide (faults 0 = Fault.lookup)) with
    | found e =>
      rw [hF] at hr
      obtain ⟨he, hk⟩ := First_found hF
      have h1 := ih _ _ _ (Updates_WF hwf e _ _ hid) hr hno'
      rcases Updates_mem hwf he h1 with h2 | h2
      · exact h2
      · exfalso
        apply hne
        rw [h2, assignNonZero_key e _ hk, hk]
    | recordNotFound =>
      rw [hF] at hr
      have h1 := ih _ _ _ (Create_WF hwf _ _ hid) hr hno'
      rcases Create_cases db (buildCountry ext rates now g).1
        (decide (faults 0 = Fault.write)) hid with h | h
      · rw [h] at h1; exact h1
      · rw [h] at h1
        simp only [List.mem_append, List.mem_singleton] at h1
        rcases h1 with h1 | h1
        · exact h1
        · exfalso
          apply hne
          rw [h1]
    | otherError =>
      rw [hF] at hr
      exact hr

/-- After a run without storage failures every upstream name has a matching row. -/
theorem refreshLoop_covers (rates : ExchangeRates) (now : Time) (cs : List ExternalCountry)
    (g : Source) (db : DB) (hwf : db.WF) :
    ∀ ext ∈ cs, LOWER ext.Name ∈ (refreshLoop rates now cs noFaults g db).2.1.keys := by
  induction cs generalizing g db with
  | nil => intro ext h; cases h
  | cons ext rest ih =>
    intro x hx
    have hid := buildCountry_ID ext rates now g
    have hname := buildCountry_Name ext rates now g
    rw [refreshLoop_cons]
    have h0 : decide (noFaults 0 = Fault.lookup) = false := by decide
    have h1 : decide (noFaults 0 = Fault.write) = false := by decide
    rw [h0, h1, noFaults_shift]
    cases hF : First db (buildCountry ext rates now g).1.Name false with
    | found e =>
      obtain ⟨he, hk⟩ := First_found hF
      have hwf1 := Updates_WF hwf e (buildCountry ext rates now g).1 false hid
      rcases List.mem_cons.mp hx with hx | hx
      · subst hx
        apply refreshLoop_key_mono _ _ _ _ _ _ hwf1
        rw [Updates_keys hwf false he hk, ← hname, ← hk]
        exact List.mem_map.mpr ⟨e, he, rfl⟩
      · exact ih _ _ hwf1 x hx
    | recordNotFound =>
      have hwf1 := Create_WF hwf (buildCountry ext rates now g).1 false hid
      rcases List.mem_cons.mp hx with hx | hx
      · subst hx
        apply refreshLoop_key_mono _ _ _ _ _ _ hwf1
        rw [Create_ok _ _ hid]
        simp [DB.keys, hname]
      · exact ih _ _ hwf1 x hx
    | otherError => cases First_otherError hF

/-- When every upstream name already has a matching row, the loop creates nothing. -/
theorem refreshLoop_length_eq (rates : ExchangeRates) (now : Time) (cs : List ExternalCountry)
    (faults : Nat → Fault) (g : Source) (db : DB) (hwf : db.WF)
    (hcov : ∀ ext ∈ cs, LOWER ext.Name ∈ db.keys) :
    (refreshLoop rates now cs faults g db).2.1.rows.length = db.rows.length := by
  induction cs generalizing faults g db with
  | nil => rfl
  | cons ext rest ih =>
    have hid := buildCountry_ID ext rates now g
    have hname := buildCountry_Name ext rates now g
    rw [refreshLoop_cons]
    cases hF : First db (buildCountry ext rates now g).1.Name (decide (faults 0 = Fault.lookup)) with
    | found e =>
      obtain ⟨he, hk⟩ := First_found hF
      have hwf1 := Updates_WF hwf e (buildCountry ext rates now g).1
        (decide (faults 0 = Fault.write)) hid
      show (refreshLoop rates now rest _ _ _).2.1.rows.length = _
      rw [ih _ _ _ hwf1 (fun x hx => by
        rw [Updates_keys hwf _ he hk]
        exact hcov x (List.mem_cons_of_mem _ hx)), Updates_length]
    | recordNotFound =>
      exfalso
      have := hcov ext (List.mem_cons_self _ _)
      obtain ⟨r, hr, hkey⟩ := List.mem_map.mp this
      exact First_recordNotFound hF r hr (by rw [hname]; exact hkey)
    | otherError => rfl

/-- A successful `Updates` of a row of the table: every row afterwards is an untouched
row with another primary key or the rewritten target row. -/
theorem Updates_mem_applied {db : DB} (hwf : db.WF) {e c r : Country} (he : e ∈ db.rows)
    (hr : r ∈ (Updates db e c false).1.rows) :
    (r ∈ db.rows ∧ r.ID ≠ e.ID) ∨ r = assignNonZero e c := by
  have hid : e.ID ≠ 0 := by
    have := (hwf.2.2 e.ID (List.mem_map_of_mem _ he)).1
    omega
  unfold Updates at hr
  simp only [Bool.false_eq_true, if_false, if_neg hid, List.mem_map] at hr
  obtain ⟨r0, hr0, h⟩ := hr
  split_ifs at h with hid'
  · right
    have : r0 = e := eq_of_ID_eq hwf hr0 he hid'
    rw [← h, this]
  · left
    rw [← h]; exact ⟨hr0, hid'⟩

/-- After a run without storage failures every row that matches an upstream record
carries the timestamp of the run. -/
theorem refreshLoop_stamps (rates : ExchangeRates) (now : Time) (hnow : now ≠ 0)
    (cs : List ExternalCountry) (g : Source) (db : DB) (hwf : db.WF)
    (hnd : db.NamesDistinct) :
    ∀ r ∈ (refreshLoop rates now cs noFaults g db).2.1.rows,
      (∃ ext ∈ cs, LOWER ext.Name = LOWER r.Name) → r.LastRefreshedAt = now := by
  induction cs generalizing g db with
  | nil => rintro r - ⟨ext, h, -⟩; cases h
  | cons ext rest ih =>
    intro r hr hmatch
    have hid := buildCountry_ID ext rates now g
    have hname := buildCountry_Name ext rates now g
    have hts := buildCountry_LastRefreshedAt ext rates now g
    rw [refreshLoop_cons] at hr
    have h0 : decide (noFaults 0 = Fault.lookup) = false := by decide
    have h1 : decide (noFaults 0 = Fault.write) = false := by decide
    rw [h0, h1, noFaults_shift] at hr
    by_cases hrest : ∃ x ∈ rest, LOWER x.Name = LOWER r.Name
    · cases hF : First db (buildCountry ext rates now g).1.Name false with
      | found e =>
        rw [hF] at hr
        obtain ⟨he, hk⟩ := First_found hF
        refine ih _ _ (Updates_WF hwf e _ _ hid) ?_ r hr hrest
        unfold DB.NamesDistinct
        rw [Updates_keys hwf false he hk]
        exact hnd
      | recordNotFound =>
        rw [hF] at hr
        exact ih _ _ (Create_WF hwf _ _ hid)
          (Create_NamesDistinct hnd _ _ hid (First_recordNotFound hF)) r hr hrest
      | otherError => cases First_otherError hF
    · have hext : LOWER ext.Name = LOWER r.Name := by
        obtain ⟨x, hx, hxr⟩ := hmatch
        rcases List.mem_cons.mp hx with hx | hx
        · rw [← hx]; exact hxr
        · exact absurd ⟨x, hx, hxr⟩ hrest
      have hno : ∀ x ∈ rest, LOWER x.Name ≠ LOWER r.Name :=
        fun x hx hxr => hrest ⟨x, hx, hxr⟩
      cases hF : First db (buildCountry ext rates now g).1.Name false with
      | found e =>
        rw [hF] at hr
        obtain ⟨he, hk⟩ := First_found hF
        have hr1 := refreshLoop_frame_back _ _ _ _ _ _ (Updates_WF hwf e _ _ hid) r hr hno
        rcases Updates_mem_applied hwf he hr1 with ⟨h2, h3⟩ | h2
        · exfalso
          apply h3
          have hkeys : LOWER r.Name = LOWER e.Name := by rw [← hext, hk, hname]
          have : r = e := List.inj_on_of_nodup_map hnd h2 he hkeys
          rw [this]
        · rw [h2, assignNonZero_LastRefreshedAt _ _ (by rw [hts]; exact hnow), hts]
      | recordNotFound =>
        rw [hF] at hr
        have hr1 := refreshLoop_frame_back _ _ _ _ _ _ (Create_WF hwf _ _ hid) r hr hno
        rw [Create_ok _ _ hid] at hr1
        simp only [List.mem_append, List.mem_singleton] at hr1
        rcases hr1 with h2 | h2
        · exfalso
          exact First_recordNotFound hF r h2 (by rw [hname]; exact hext.symm)
        · rw [h2]; exact hts
      | otherError => cases First_otherError hF

/-! ## The handler -/

/-- The store that `refreshCountries` leaves: the loop result when both fetches
succeeded, the untouched store otherwise. -/
theorem refreshCountries_db (countriesAPI : Fetch (List ExternalCountry))
    (exchangeAPI : Fetch ExchangeRates) (now : Time) (g : Source) (faults : Nat → Fault)
    (env : ImageEnv) (db : DB) :
    (refreshCountries countriesAPI exchangeAPI now g faults env db).db =
      match countriesAPI, exchangeAPI with
      | Fetch.ok cs, Fetch.ok rates => (refreshLoop rates now cs faults g db).2.1
      | _, _ => db := by
  unfold refreshCountries
  cases countriesAPI with
  | transportError => rfl
  | decodeError => rfl
  | ok cs =>
    cases exchangeAPI with
    | transportError => rfl
    | decodeError => rfl
    | ok rates =>
      simp only
      rcases h : refreshLoop rates now cs faults g db with ⟨b, d, g1⟩
      cases b
      · rfl
      · simp only
        cases generateSummaryImage env d <;> rfl

/-- The response of `refreshCountries` after two successful fetches is decided by
whether the loop ran to its end. -/
theorem refreshCountries_response (cs : List ExternalCountry) (rates : ExchangeRates)
    (now : Time) (g : Source) (faults : Nat → Fault) (env : ImageEnv) (db : DB) :
    (refreshCountries (Fetch.ok cs) (Fetch.ok rates) now g faults env db).response =
      if (refreshLoop rates now cs faults g db).1 then
        Response.ok "Data refreshed successfully"
      else Response.internalServerError "Database error" := by
  unfold refreshCountries
  simp only
  rcases h : refreshLoop rates now cs faults g db with ⟨b, d, g1⟩
  cases b
  · rfl
  · simp only
    cases generateSummaryImage env d <;> rfl

/-! ## Claims -/

/-- C2, the code at a failing input: the stored row for France is matched by the
upstream record FRANCE whose capital, population and currency are empty; after the
refresh the row keeps its primary key, takes the new name and timestamp, but still
holds the old capital, population, currency code, exchange rate and GDP instead of the
merged record's empty values. -/
theorem refreshCountries_update_skips_zero_fields :
    (buildCountry franceBare tstRates 2 zeroDraw).1 =
      { ID := 0, Name := "FRANCE", Capital := "", Region := "Europe", Population := 0,
        CurrencyCode := "", ExchangeRate := none, EstimatedGDP := none,
        FlagURL := "https://flagcdn.com/fr.svg", LastRefreshedAt := 2 } ∧
    (refreshCountries (Fetch.ok [franceBare]) (Fetch.ok tstRates) 2 zeroDraw noFaults goodEnv
        franceDB).db =
      ⟨[{ ID := 1, Name := "FRANCE", Capital := "Paris", Region := "Europe",
          Population := 67000000, CurrencyCode := "EUR",
          ExchangeRate := some (F64.fin false (7 / 8)),
          EstimatedGDP := some (F64.fin false 100000000000),
          FlagURL := "https://flagcdn.com/fr.svg", LastRefreshedAt := 2 }], 2⟩ := by
  constructor <;> decide!

/-- C3: with the primary-key and unique-name constraints holding at the start and no
storage failure, a second refresh on the same upstream data leaves the number of rows
equal to that after the first refresh, and afterwards every row whose name matches an
upstream record case-insensitively carries the second run's (non-zero) timestamp. -/
theorem refreshCountries_twice (cs : List ExternalCountry) (rates : ExchangeRates)
    (now1 now2 : Time) (g1 g2 : Source) (env1 env2 : ImageEnv) (db : DB)
    (hwf : db.WF) (hnd : db.NamesDistinct) (hnow : now2 ≠ 0) :
    (refreshCountries (Fetch.ok cs) (Fetch.ok rates) now2 g2 noFaults env2
        (refreshCountries (Fetch.ok cs) (Fetch.ok rates) now1 g1 noFaults env1 db).db).db.rows.length
      = (refreshCountries (Fetch.ok cs) (Fetch.ok rates) now1 g1 noFaults env1 db).db.rows.length ∧
    ∀ r ∈ (refreshCountries (Fetch.ok cs) (Fetch.ok rates) now2 g2 noFaults env2
        (refreshCountries (Fetch.ok cs) (Fetch.ok rates) now1 g1 noFaults env1 db).db).db.rows,
      (∃ ext ∈ cs, LOWER ext.Name = LOWER r.Name) → r.LastRefreshedAt = now2 := by
  simp only [refreshCountries_db]
  have hwf1 := refreshLoop_WF rates now1 cs noFaults g1 db hwf
  have hnd1 := refreshLoop_NamesDistinct rates now1 cs noFaults g1 db hwf hnd
  exact ⟨refreshLoop_length_eq rates now2 cs noFaults g2 _ hwf1
      (refreshLoop_covers rates now1 cs g1 db hwf),
    refreshLoop_stamps rates now2 hnow cs g2 _ hwf1 hnd1⟩

/-- C3, witness: two refreshes of the France table with a two-record dataset. -/
theorem refreshCountries_twice_france :
    (refreshCountries (Fetch.ok [franceFull, testland]) (Fetch.ok tstRates) 3 lastDraw noFaults
        goodEnv
        (refreshCountries (Fetch.ok [franceFull, testland]) (Fetch.ok tstRates) 2 zeroDraw
          noFaults noFontEnv franceDB).db).db.rows.length
      = (refreshCountries (Fetch.ok [franceFull, testland]) (Fetch.ok tstRates) 2 zeroDraw
          noFaults noFontEnv franceDB).db.rows.length ∧
    ∀ r ∈ (refreshCountries (Fetch.ok [franceFull, testland]) (Fetch.ok tstRates) 3 lastDraw
        noFaults goodEnv
        (refreshCountries (Fetch.ok [franceFull, testland]) (Fetch.ok tstRates) 2 zeroDraw
          noFaults noFontEnv franceDB).db).db.rows,
      (∃ ext ∈ [franceFull, testland], LOWER ext.Name = LOWER r.Name) →
        r.LastRefreshedAt = 3 :=
  refreshCountries_twice [franceFull, testland] tstRates 2 3 zeroDraw lastDraw noFontEnv
    goodEnv franceDB (by decide) (by decide) (by decide)

/-- C4: when the countries fetch or the exchange-rates fetch fails (transport error or
undecodable body), the handler answers with an error status and the store is exactly
the store it started with, also when the countries fetch had succeeded. -/
theorem refreshCountries_fetch_failure (countriesAPI : Fetch (List ExternalCountry))
    (exchangeAPI : Fetch ExchangeRates) (now : Time) (g : Source) (faults : Nat → Fault)
    (env : ImageEnv) (db : DB)
    (h : (∀ cs, countriesAPI ≠ Fetch.ok cs) ∨ (∀ rates, exchangeAPI ≠ Fetch.ok rates)) :
    ((∃ e api, (refreshCountries countriesAPI exchangeAPI now g faults env db).response
        = Response.serviceUnavailable e api) ∨
     (∃ e, (refreshCountries countriesAPI exchangeAPI now g faults env db).response
        = Response.internalServerError e)) ∧
    (refreshCountries countriesAPI exchangeAPI now g faults env db).db = db := by
  unfold refreshCountries
  cases countriesAPI with
  | transportError => exact ⟨Or.inl ⟨_, _, rfl⟩, rfl⟩
  | decodeError => exact ⟨Or.inr ⟨_, rfl⟩, rfl⟩
  | ok cs =>
    cases exchangeAPI with
    | transportError => exact ⟨Or.inl ⟨_, _, rfl⟩, rfl⟩
    | decodeError => exact ⟨Or.inr ⟨_, rfl⟩, rfl⟩
    | ok rates =>
      exfalso
      rcases h with h | h
      · exact h cs rfl
      · exact h rates rfl

/-- C4, witness: the countries fetch succeeds and the rates fetch fails in transport. -/
theorem refreshCountries_fetch_failure_rates :
    ((∃ e api, (refreshCountries (Fetch.ok [testland]) Fetch.transportError 2 zeroDraw noFaults
        goodEnv franceDB).response = Response.serviceUnavailable e api) ∨
     (∃ e, (refreshCountries (Fetch.ok [testland]) Fetch.transportError 2 zeroDraw noFaults
        goodEnv franceDB).response = Response.internalServerError e)) ∧
    (refreshCountries (Fetch.ok [testland]) Fetch.transportError 2 zeroDraw noFaults goodEnv
        franceDB).db = franceDB :=
  refreshCountries_fetch_failure (Fetch.ok [testland]) Fetch.transportError 2 zeroDraw
    noFaults goodEnv franceDB (Or.inr (fun _ h => by cases h))

/-- C5: when the lookup for the record at position `k` is the first lookup to fail with
an error other than not-found, the handler answers 500 "Database error", and the store
is the one the loop leaves after running to the end over the first `k` records alone:
earlier records stay applied, the record at `k` and all later ones are not applied. -/
theorem refreshCountries_lookup_failure (cs : List ExternalCountry) (rates : ExchangeRates)
    (now : Time) (g : Source) (faults : Nat → Fault) (env : ImageEnv) (db : DB) (k : Nat)
    (hk : k < cs.length) (hbefore : ∀ j < k, faults j ≠ Fault.lookup)
    (hat : faults k = Fault.lookup) :
    (refreshCountries (Fetch.ok cs) (Fetch.ok rates) now g faults env db).response
      = Response.internalServerError "Database error" ∧
    (refreshLoop rates now (cs.take k) faults g db).1 = true ∧
    (refreshCountries (Fetch.ok cs) (Fetch.ok rates) now g faults env db).db
      = (refreshLoop rates now (cs.take k) faults g db).2.1 := by
  obtain ⟨h1, h2, h3⟩ := refreshLoop_abort rates now k cs faults g db hk hbefore hat
  refine ⟨?_, h2, ?_⟩
  · rw [refreshCountries_response, h1]; rfl
  · rw [refreshCountries_db]; exact h3

/-- C5, witness: the lookup of the second of three records fails; only the first
record has been created. -/
theorem refreshCountries_lookup_failure_second :
    (refreshCountries (Fetch.ok [testland, franceFull, island]) (Fetch.ok tstRates) 2 zeroDraw
        lookupFaultSecond goodEnv emptyDB).response
      = Response.internalServerError "Database error" ∧
    (refreshLoop tstRates 2 ([testland, franceFull, island].take 1) lookupFaultSecond zeroDraw
        emptyDB).1 = true ∧
    (refreshCountries (Fetch.ok [testland, franceFull, island]) (Fetch.ok tstRates) 2 zeroDraw
        lookupFaultSecond goodEnv emptyDB).db
      = (refreshLoop tstRates 2 ([testland, franceFull, island].take 1) lookupFaultSecond
          zeroDraw emptyDB).2.1 :=
  refreshCountries_lookup_failure [testland, franceFull, island] tstRates 2 zeroDraw
    lookupFaultSecond goodEnv emptyDB 1 (by decide)
    (fun j hj => by
      have : j = 0 := by omega
      subst this
      decide)
    (by decide)

/-- C7, the code at a failing input: when the INSERT of the only upstream record fails,
and when the UPDATE of the only matching row fails, the handler still answers
200 "Data refreshed successfully" and the store is unchanged. -/
theorem refreshCountries_ignores_write_failure :
    (Create emptyDB (buildCountry testland tstRates 2 zeroDraw).1 true).2 = true ∧
    refreshCountries (Fetch.ok [testland]) (Fetch.ok tstRates) 2 zeroDraw writeFaultFirst
        goodEnv emptyDB
      = ⟨Response.ok "Data refreshed successfully", emptyDB, []⟩ ∧
    (Updates franceDB franceRow (buildCountry franceFull tstRates 2 zeroDraw).1 true).2 = true ∧
    refreshCountries (Fetch.ok [franceFull]) (Fetch.ok tstRates) 2 zeroDraw writeFaultFirst
        goodEnv franceDB
      = ⟨Response.ok "Data refreshed successfully", franceDB, []⟩ := by
  refine ⟨by decide!, ?_, by decide!, ?_⟩ <;> decide!

/-- C8: with the primary-key constraint holding at the start, a refresh deletes nothing,
whatever the fetches, the storage and the file system do: the number of rows does not
decrease, and every row whose name matches no upstream record case-insensitively is
still in the table with every field unchanged. -/
theorem refreshCountries_deletes_nothing (countriesAPI : Fetch (List ExternalCountry))
    (exchangeAPI : Fetch ExchangeRates) (now : Time) (g : Source) (faults : Nat → Fault)
    (env : ImageEnv) (db : DB) (hwf : db.WF) :
    db.rows.length
      ≤ (refreshCountries countriesAPI exchangeAPI now g faults env db).db.rows.length ∧
    ∀ r ∈ db.rows,
      (∀ cs, countriesAPI = Fetch.ok cs → ∀ ext ∈ cs, LOWER ext.Name ≠ LOWER r.Name) →
      r ∈ (refreshCountries countriesAPI exchangeAPI now g faults env db).db.rows := by
  rw [refreshCountries_db]
  cases countriesAPI with
  | transportError => exact ⟨le_refl _, fun r hr _ => hr⟩
  | decodeError => exact ⟨le_refl _, fun r hr _ => hr⟩
  | ok cs =>
    cases exchangeAPI with
    | transportError => exact ⟨le_refl _, fun r hr _ => hr⟩
    | decodeError => exact ⟨le_refl _, fun r hr _ => hr⟩
    | ok rates =>
      exact ⟨refreshLoop_length_le rates now cs faults g db,
        fun r hr hno => refreshLoop_frame rates now cs faults g db hwf r hr (hno cs rfl)⟩

/-- C8, witness: refreshing the France table with Testland and the island. -/
theorem refreshCountries_deletes_nothing_france :
    franceDB.rows.length
      ≤ (refreshCountries (Fetch.ok [testland, island]) (Fetch.ok tstRates) 2 lastDraw
          writeFaultFirst noFontEnv franceDB).db.rows.length ∧
    ∀ r ∈ franceDB.rows,
      (∀ cs, Fetch.ok [testland, island] = Fetch.ok cs →
        ∀ ext ∈ cs, LOWER ext.Name ≠ LOWER r.Name) →
      r ∈ (refreshCountries (Fetch.ok [testland, island]) (Fetch.ok tstRates) 2 lastDraw
          writeFaultFirst noFontEnv franceDB).db.rows :=
  refreshCountries_deletes_nothing (Fetch.ok [testland, island]) (Fetch.ok tstRates) 2
    lastDraw writeFaultFirst noFontEnv franceDB (by decide)

/-- C9, the code at a failing input: on an empty table, the upstream records France
(capital Paris, population 67000000, currency EUR) and FRANCE (no capital, population
zero, no currency) end up as a single row, which has the later record's name but still
the earlier record's capital, population and currency code. -/
theorem refreshCountries_case_variants_merge_fields :
    (refreshCountries (Fetch.ok [franceFull, franceBare]) (Fetch.ok tstRates) 2 zeroDraw
        noFaults goodEnv emptyDB).db =
      ⟨[{ ID := 1, Name := "FRANCE", Capital := "Paris", Region := "Europe",
          Population := 67000000, CurrencyCode := "EUR", ExchangeRate := none,
          EstimatedGDP := none, FlagURL := "https://flagcdn.com/fr.svg",
          LastRefreshedAt := 2 }], 2⟩ := by
  decide!

/-- C10: when both fetches succeed and no lookup fails with an error other than
not-found, the handler answers 200 "Data refreshed successfully" for every behaviour of
the file system, that is whether `generateSummaryImage` returns an error or not, and
the store it leaves is the store the loop left, which does not depend on the file
system. -/
theorem refreshCountries_image_best_effort (cs : List ExternalCountry) (rates : ExchangeRates)
    (now : Time) (g : Source) (faults : Nat → Fault) (db : DB)
    (hlookup : ∀ i, faults i ≠ Fault.lookup) (env : ImageEnv) :
    (refreshCountries (Fetch.ok cs) (Fetch.ok rates) now g faults env db).response
      = Response.ok "Data refreshed successfully" ∧
    (refreshCountries (Fetch.ok cs) (Fetch.ok rates) now g faults env db).db
      = (refreshLoop rates now cs faults g db).2.1 := by
  refine ⟨?_, ?_⟩
  · rw [refreshCountries_response, refreshLoop_completes rates now cs faults g db hlookup]
    rfl
  · rw [refreshCountries_db]

/-- C10, witness: the font cannot be loaded, `generateSummaryImage` returns an error,
and the refresh still succeeds. -/
theorem refreshCountries_image_best_effort_no_font :
    (refreshCountries (Fetch.ok [testland]) (Fetch.ok tstRates) 2 zeroDraw noFaults noFontEnv
        emptyDB).response = Response.ok "Data refreshed successfully" ∧
    (refreshCountries (Fetch.ok [testland]) (Fetch.ok tstRates) 2 zeroDraw noFaults noFontEnv
        emptyDB).db = (refreshLoop tstRates 2 [testland] noFaults zeroDraw emptyDB).2.1 :=
  refreshCountries_image_best_effort [testland] tstRates 2 zeroDraw noFaults emptyDB
    (fun _ h => Fault.noConfusion h) noFontEnv

end CurrencyPopulation
